import Mathlib

/-!
Shallow embedding of `src/includes/acl/compression/stream/write_stream_data.h`:
the three region-size calculators and the three region writers of the ACL
track-data packing core.  Byte buffers are `List Nat`, bone arrays are
`List BoneStreams`, and the `ACL_ENSURE` aborts of the writers are embedded
as `Except WriteError` results.  Collaborator code that the header consumes
but that is not part of the source tree (the format size oracle from
`acl/math/quat_packing.h`, the `BoneStreams` accessors and
`get_animated_num_samples` from `acl/compression/stream/track_stream.h`,
`safe_static_cast` from `acl/core/memory.h`) is modelled from the spec and
marked as such.
-/

namespace AclStream

/-- One channel's track stream as consumed by `write_stream_data.h`:
resolved format id (`get_rotation_format` / `get_vector_format`), sample
count (`get_num_samples`), per-sample byte width (`get_sample_size`) and the
raw per-sample bytes (`get_raw_sample_ptr`). -/
structure TrackStream where
  format : Nat
  num_samples : Nat
  sample_size : Nat
  samples : List (List Nat)

/-- Per-bone record: classification flags and the two channel streams
(source type `BoneStreams` from `track_stream.h`, used field-by-field in
`write_stream_data.h`). -/
structure BoneStreams where
  is_rotation_default : Bool
  is_rotation_constant : Bool
  is_translation_default : Bool
  is_translation_constant : Bool
  rotations : TrackStream
  translations : TrackStream

/-- Modelled from the spec: `BoneStreams::is_rotation_animated` from
`track_stream.h` (absent from src); a channel is Animated exactly when it is
neither default nor constant. -/
def is_rotation_animated (b : BoneStreams) : Bool :=
  !b.is_rotation_default && !b.is_rotation_constant

/-- Modelled from the spec: `BoneStreams::is_translation_animated` from
`track_stream.h` (absent from src). -/
def is_translation_animated (b : BoneStreams) : Bool :=
  !b.is_translation_default && !b.is_translation_constant

/-- Modelled from the spec: the format size oracle of
`acl/math/quat_packing.h` (absent from src) — pure lookup from a format id
to its packed byte width, plus the variable-width predicates.  Format ids
are numbers; the oracle is a parameter of every definition that uses it. -/
structure FormatOracle where
  get_packed_rotation_size : Nat → Nat
  get_packed_vector_size : Nat → Nat
  is_rotation_format_variable : Nat → Bool
  is_vector_format_variable : Nat → Bool

/-- Modelled from the spec: `get_animated_num_samples` from
`track_stream.h` (absent from src) — the clip's shared sample count, read
from the first animated channel in bone order; `0` when no channel of the
clip is animated. -/
def get_animated_num_samples : List BoneStreams → Nat
  | [] => 0
  | b :: rest =>
    if is_rotation_animated b then b.rotations.num_samples
    else if is_translation_animated b then b.translations.num_samples
    else get_animated_num_samples rest

/-- `get_constant_data_size` (write_stream_data.h:38-61): sum over bones of
the packed size of each constant-and-not-default channel, rotation before
translation. -/
def get_constant_data_size (O : FormatOracle) : List BoneStreams → Nat
  | [] => 0
  | b :: rest =>
    (if !b.is_rotation_default && b.is_rotation_constant then
      O.get_packed_rotation_size b.rotations.format else 0)
    + (if !b.is_translation_default && b.is_translation_constant then
      O.get_packed_vector_size b.translations.format else 0)
    + get_constant_data_size O rest

/-- `get_animated_data_size` (write_stream_data.h:63-93): first component is
the total animated size (per channel, packed size times that channel's own
sample count), second component is `out_animated_pose_size`, the per-pose
stride (sum of packed sizes of animated channels). -/
def get_animated_data_size (O : FormatOracle) : List BoneStreams → Nat × Nat
  | [] => (0, 0)
  | b :: rest =>
    let rest_sizes := get_animated_data_size O rest
    let rot_size := if is_rotation_animated b then
      O.get_packed_rotation_size b.rotations.format else 0
    let rot_total := if is_rotation_animated b then
      O.get_packed_rotation_size b.rotations.format * b.rotations.num_samples else 0
    let tr_size := if is_translation_animated b then
      O.get_packed_vector_size b.translations.format else 0
    let tr_total := if is_translation_animated b then
      O.get_packed_vector_size b.translations.format * b.translations.num_samples else 0
    (rot_total + tr_total + rest_sizes.1, rot_size + tr_size + rest_sizes.2)

/-- `get_format_per_track_data_size` (write_stream_data.h:95-118): one byte
per animated channel whose clip-level format is variable; the variable test
uses only the clip-level `rotation_format` / `translation_format`
arguments. -/
def get_format_per_track_data_size (O : FormatOracle)
    (rotation_format translation_format : Nat) : List BoneStreams → Nat
  | [] => 0
  | b :: rest =>
    (if O.is_rotation_format_variable rotation_format && is_rotation_animated b
      then 1 else 0)
    + (if O.is_vector_format_variable translation_format && is_translation_animated b
      then 1 else 0)
    + get_format_per_track_data_size O rotation_format translation_format rest

/-- The `ACL_ENSURE` failures of the three writers, plus the failure modes
of the total embedding (a raw-sample access past the stored samples, and a
`safe_static_cast` overflow). -/
inductive WriteError where
  | wroteTooMuch
  | wroteTooLittle
  | noSamples
  | sampleOutOfRange
  | castOutOfRange
  deriving DecidableEq

/-- `memcpy(dst, src, n)` on byte lists: the `n` bytes starting at the
sample pointer; a read past the stored bytes yields `0`. -/
def memcpy_bytes : Nat → List Nat → List Nat
  | 0, _ => []
  | n + 1, [] => 0 :: memcpy_bytes n []
  | n + 1, a :: l => a :: memcpy_bytes n l

/-- `get_raw_sample_ptr i` as a pure accessor: the stored bytes of sample
`i`, `[]` when out of range (the fallible accessor is `samples[i]?`). -/
def sampleAt (s : TrackStream) (i : Nat) : List Nat :=
  (s.samples[i]?).getD []

/-- Modelled from the spec: `safe_static_cast<uint8_t>` from
`acl/core/memory.h` (absent from src) — the value must be representable in
a single byte. -/
def safe_static_cast_u8 (n : Nat) : Except WriteError Nat :=
  if n < 256 then Except.ok n else Except.error WriteError.castOutOfRange

/-- The bounds-checked sequential write loop shared by the three writers:
run `step` over the items, aborting at the first failure. -/
def writeLoop {α : Type} (step : List Nat → α → Except WriteError (List Nat)) :
    List Nat → List α → Except WriteError (List Nat)
  | acc, [] => Except.ok acc
  | acc, x :: xs =>
    match step acc x with
    | Except.ok acc2 => writeLoop step acc2 xs
    | Except.error e => Except.error e

/-- One conditional channel copy, the block duplicated across the constant
and animated writers: when `cond` holds, `memcpy` the raw bytes of sample
`i` (size `ss = get_sample_size()`) onto the cursor. -/
def writeChannel (cond : Bool) (ss : Nat) (samples : List (List Nat)) (i : Nat)
    (acc : List Nat) : Except WriteError (List Nat) :=
  if cond then
    match samples[i]? with
    | some s => Except.ok (acc ++ memcpy_bytes ss s)
    | none => Except.error WriteError.sampleOutOfRange
  else Except.ok acc

/-- The per-bone `ACL_ENSURE(cursor <= end, "... Wrote too much data.")`
check shared by the three writers. -/
def checkFits (limit : Nat) (acc : List Nat) : Except WriteError (List Nat) :=
  if acc.length ≤ limit then Except.ok acc
  else Except.error WriteError.wroteTooMuch

/-- Body of the per-bone loop of `write_constant_track_data`
(write_stream_data.h:124-145): copy sample 0 of each
constant-and-not-default channel, rotation before translation, advancing
the cursor by `get_sample_size()`, then the per-bone wrote-too-much
check. -/
def writeConstantBone (limit : Nat) (acc : List Nat) (b : BoneStreams) :
    Except WriteError (List Nat) :=
  match writeChannel (!b.is_rotation_default && b.is_rotation_constant)
      b.rotations.sample_size b.rotations.samples 0 acc with
  | Except.error e => Except.error e
  | Except.ok acc1 =>
    match writeChannel (!b.is_translation_default && b.is_translation_constant)
        b.translations.sample_size b.translations.samples 0 acc1 with
    | Except.error e => Except.error e
    | Except.ok acc2 => checkFits limit acc2

/-- `write_constant_track_data` (write_stream_data.h:120-148): per-bone
loop, then the final wrote-too-little equality check against the
precomputed size. -/
def write_constant_track_data (bones : List BoneStreams)
    (constant_data_size : Nat) : Except WriteError (List Nat) :=
  match writeLoop (writeConstantBone constant_data_size) [] bones with
  | Except.error e => Except.error e
  | Except.ok out =>
    if out.length = constant_data_size then Except.ok out
    else Except.error WriteError.wroteTooLittle

/-- Body of the inner (bone) loop of `write_animated_track_data`
(write_stream_data.h:161-182): copy the sample at `sample_index` of each
animated channel, rotation before translation, then the per-bone
wrote-too-much check. -/
def writeAnimatedBone (limit sample_index : Nat) (acc : List Nat)
    (b : BoneStreams) : Except WriteError (List Nat) :=
  match writeChannel (is_rotation_animated b) b.rotations.sample_size
      b.rotations.samples sample_index acc with
  | Except.error e => Except.error e
  | Except.ok acc1 =>
    match writeChannel (is_translation_animated b) b.translations.sample_size
        b.translations.samples sample_index acc1 with
    | Except.error e => Except.error e
    | Except.ok acc2 => checkFits limit acc2

/-- `write_animated_track_data` (write_stream_data.h:150-186): the
`num_samples > 1` `ACL_ENSURE`, then the time-outer / bone-inner nested
loops, then the final wrote-too-little equality check. -/
def write_animated_track_data (bones : List BoneStreams)
    (animated_data_size : Nat) : Except WriteError (List Nat) :=
  let num_samples := get_animated_num_samples bones
  if num_samples > 1 then
    match writeLoop
        (fun acc sample_index =>
          writeLoop (writeAnimatedBone animated_data_size sample_index) acc bones)
        [] (List.range num_samples) with
    | Except.error e => Except.error e
    | Except.ok out =>
      if out.length = animated_data_size then Except.ok out
      else Except.error WriteError.wroteTooLittle
  else Except.error WriteError.noSamples

/-- Body of the per-bone loop of `write_format_per_track_data`
(write_stream_data.h:195-214): one `safe_static_cast<uint8_t>(format)` byte
per animated channel whose clip-level format is variable, then the per-bone
wrote-too-much check. -/
def writeFormatChannel (cond : Bool) (fmt : Nat) (acc : List Nat) :
    Except WriteError (List Nat) :=
  if cond then
    match safe_static_cast_u8 fmt with
    | Except.ok v => Except.ok (acc ++ [v])
    | Except.error e => Except.error e
  else Except.ok acc

def writeFormatBone (O : FormatOracle) (limit rotation_format translation_format : Nat)
    (acc : List Nat) (b : BoneStreams) : Except WriteError (List Nat) :=
  match writeFormatChannel
      (O.is_rotation_format_variable rotation_format && is_rotation_animated b)
      b.rotations.format acc with
  | Except.error e => Except.error e
  | Except.ok acc1 =>
    match writeFormatChannel
        (O.is_vector_format_variable translation_format && is_translation_animated b)
        b.translations.format acc1 with
    | Except.error e => Except.error e
    | Except.ok acc2 => checkFits limit acc2

/-- `write_format_per_track_data` (write_stream_data.h:188-217). -/
def write_format_per_track_data (O : FormatOracle) (bones : List BoneStreams)
    (rotation_format translation_format : Nat)
    (format_per_track_data_size : Nat) : Except WriteError (List Nat) :=
  match writeLoop
      (writeFormatBone O format_per_track_data_size rotation_format translation_format)
      [] bones with
  | Except.error e => Except.error e
  | Except.ok out =>
    if out.length = format_per_track_data_size then Except.ok out
    else Except.error WriteError.wroteTooLittle

/-- Pure value of one conditional channel copy. -/
def channelBytes (cond : Bool) (ss : Nat) (samples : List (List Nat)) (i : Nat) :
    List Nat :=
  if cond then memcpy_bytes ss (samples[i]?.getD []) else []

/-- Pure value of what `write_constant_track_data` appends for one bone:
sample 0 of each constant-and-not-default channel, rotation before
translation, each read for `get_sample_size()` bytes. -/
def boneConstantBytes (b : BoneStreams) : List Nat :=
  channelBytes (!b.is_rotation_default && b.is_rotation_constant)
    b.rotations.sample_size b.rotations.samples 0
  ++ channelBytes (!b.is_translation_default && b.is_translation_constant)
    b.translations.sample_size b.translations.samples 0

/-- Pure value of the whole constant region: bones in ascending index
order. -/
def constantBytes (bones : List BoneStreams) : List Nat :=
  (bones.map boneConstantBytes).flatten

/-- Pure value of what the animated writer appends for one bone inside the
time slice `sample_index`. -/
def boneSliceBytes (sample_index : Nat) (b : BoneStreams) : List Nat :=
  channelBytes (is_rotation_animated b) b.rotations.sample_size
    b.rotations.samples sample_index
  ++ channelBytes (is_translation_animated b) b.translations.sample_size
    b.translations.samples sample_index

/-- One pose slice of the animated region: every animated channel's sample
at time `sample_index`, bones ascending, rotation before translation. -/
def poseSlice (bones : List BoneStreams) (sample_index : Nat) : List Nat :=
  (bones.map (boneSliceBytes sample_index)).flatten

/-- Pure value of the whole animated region for `n` time samples: pose
slices in ascending time order (time outer, bone inner). -/
def animatedBytes (bones : List BoneStreams) (n : Nat) : List Nat :=
  ((List.range n).map (poseSlice bones)).flatten

/-- Pure value of what the format-table writer appends for one bone: the
resolved format id of each channel that is animated and whose clip-level
format is variable. -/
def boneFormatBytes (O : FormatOracle) (rotation_format translation_format : Nat)
    (b : BoneStreams) : List Nat :=
  (if O.is_rotation_format_variable rotation_format && is_rotation_animated b then
    [b.rotations.format] else [])
  ++ (if O.is_vector_format_variable translation_format && is_translation_animated b then
    [b.translations.format] else [])

/-- Pure value of the whole format-per-track table. -/
def formatTableBytes (O : FormatOracle) (rotation_format translation_format : Nat)
    (bones : List BoneStreams) : List Nat :=
  (bones.map (boneFormatBytes O rotation_format translation_format)).flatten

/-- One step of the decoder-side traversal: when the channel is
constant-and-not-default, split the next `n` bytes (the channel's packed
size) off the unread data as that channel's recovered sample. -/
def readChannelChunk (cond : Bool) (n : Nat) (st : List (List Nat) × List Nat) :
    List (List Nat) × List Nat :=
  if cond then (st.1 ++ [st.2.take n], st.2.drop n) else st

/-- The decoder-side traversal of the constant region: ascending bone
index, rotation before translation, one chunk of the oracle's packed size
per constant-and-not-default channel. -/
def read_constant_track_data (O : FormatOracle) :
    List BoneStreams → List Nat → List (List Nat)
  | [], _ => []
  | b :: rest, data =>
    let st := readChannelChunk (!b.is_translation_default && b.is_translation_constant)
      (O.get_packed_vector_size b.translations.format)
      (readChannelChunk (!b.is_rotation_default && b.is_rotation_constant)
        (O.get_packed_rotation_size b.rotations.format) ([], data))
    st.1 ++ read_constant_track_data O rest st.2

/-- The original per-channel constant samples, in the writer's traversal
order (the round-trip reference value). -/
def constantSamples (bones : List BoneStreams) : List (List Nat) :=
  (bones.map (fun b =>
    (if !b.is_rotation_default && b.is_rotation_constant then
      [sampleAt b.rotations 0] else [])
    ++ (if !b.is_translation_default && b.is_translation_constant then
      [sampleAt b.translations 0] else []))).flatten

/-- Input invariant from the collaborator interface: each
constant-and-not-default channel's `get_sample_size()` equals the oracle's
packed size for its resolved format. -/
abbrev wfConstant (O : FormatOracle) (b : BoneStreams) : Prop :=
  ((!b.is_rotation_default && b.is_rotation_constant) = true →
    b.rotations.sample_size = O.get_packed_rotation_size b.rotations.format)
  ∧ ((!b.is_translation_default && b.is_translation_constant) = true →
    b.translations.sample_size = O.get_packed_vector_size b.translations.format)

/-- Input invariant: each constant-and-not-default channel stores a sample
at index 0. -/
abbrev accessConstant (b : BoneStreams) : Prop :=
  ((!b.is_rotation_default && b.is_rotation_constant) = true →
    (b.rotations.samples[0]?).isSome = true)
  ∧ ((!b.is_translation_default && b.is_translation_constant) = true →
    (b.translations.samples[0]?).isSome = true)

/-- Input invariant: each constant-and-not-default channel's stored sample
0 holds exactly `get_sample_size()` bytes. -/
abbrev exactConstant (b : BoneStreams) : Prop :=
  ((!b.is_rotation_default && b.is_rotation_constant) = true →
    (sampleAt b.rotations 0).length = b.rotations.sample_size)
  ∧ ((!b.is_translation_default && b.is_translation_constant) = true →
    (sampleAt b.translations 0).length = b.translations.sample_size)

/-- Input invariant: each animated channel's `get_sample_size()` equals the
oracle's packed size for its resolved format. -/
abbrev wfAnimated (O : FormatOracle) (b : BoneStreams) : Prop :=
  (is_rotation_animated b = true →
    b.rotations.sample_size = O.get_packed_rotation_size b.rotations.format)
  ∧ (is_translation_animated b = true →
    b.translations.sample_size = O.get_packed_vector_size b.translations.format)

/-- Input invariant: each animated channel stores at least `n` samples. -/
abbrev accessAnimated (n : Nat) (b : BoneStreams) : Prop :=
  (is_rotation_animated b = true → n ≤ b.rotations.samples.length)
  ∧ (is_translation_animated b = true → n ≤ b.translations.samples.length)

/-- Shared-clip-sample-count precondition: every animated channel holds the
same global sample count `n`. -/
abbrev sharedSampleCount (n : Nat) (b : BoneStreams) : Prop :=
  (is_rotation_animated b = true → b.rotations.num_samples = n)
  ∧ (is_translation_animated b = true → b.translations.num_samples = n)

/-- The four classification flags of two bones agree (their formats,
sample counts and raw samples may differ arbitrarily). -/
abbrev sameCategories (a b : BoneStreams) : Prop :=
  a.is_rotation_default = b.is_rotation_default
  ∧ a.is_rotation_constant = b.is_rotation_constant
  ∧ a.is_translation_default = b.is_translation_default
  ∧ a.is_translation_constant = b.is_translation_constant

/-- Concrete format oracle for the witnesses: packed size is the format id
mod 8; odd format ids are the variable-width family. -/
def O0 : FormatOracle where
  get_packed_rotation_size := fun f => f % 8
  get_packed_vector_size := fun f => f % 8
  is_rotation_format_variable := fun f => decide (f % 2 = 1)
  is_vector_format_variable := fun f => decide (f % 2 = 1)

/-- Witness bone 0: constant rotation (format 2, two bytes), default
translation. -/
def Wb0 : BoneStreams where
  is_rotation_default := false
  is_rotation_constant := true
  is_translation_default := true
  is_translation_constant := false
  rotations := { format := 2, num_samples := 1, sample_size := 2, samples := [[7, 8]] }
  translations := { format := 0, num_samples := 0, sample_size := 0, samples := [] }

/-- Witness bone 1: animated rotation (fixed format 2, two bytes, three
samples) and animated translation (variable format 1, one byte, three
samples). -/
def Wb1 : BoneStreams where
  is_rotation_default := false
  is_rotation_constant := false
  is_translation_default := false
  is_translation_constant := false
  rotations := { format := 2, num_samples := 3, sample_size := 2, samples := [[1, 2], [3, 4], [5, 6]] }
  translations := { format := 1, num_samples := 3, sample_size := 1, samples := [[9], [10], [11]] }

/-- Witness bone set: one constant channel, two animated channels sharing
sample count 3. -/
def Wbones : List BoneStreams := [Wb0, Wb1]

/-- A bone whose two channels are both default. -/
def Db : BoneStreams where
  is_rotation_default := true
  is_rotation_constant := false
  is_translation_default := true
  is_translation_constant := false
  rotations := { format := 2, num_samples := 1, sample_size := 2, samples := [[0, 0]] }
  translations := { format := 1, num_samples := 1, sample_size := 1, samples := [[0]] }

/-- All-default bone set for the zero-channel boundary. -/
def Dbones : List BoneStreams := [Db, Db]

/-- First bone of the size-mismatch scenario: constant rotation whose
stream sample size (2) is smaller than the oracle's packed size for its
format (4). -/
def Mb0 : BoneStreams where
  is_rotation_default := false
  is_rotation_constant := true
  is_translation_default := true
  is_translation_constant := false
  rotations := { format := 4, num_samples := 1, sample_size := 2, samples := [[1, 1]] }
  translations := { format := 0, num_samples := 0, sample_size := 0, samples := [] }

/-- Second bone of the size-mismatch scenario: constant rotation whose
stream sample size (4) is larger than the oracle's packed size for its
format (2); the two mismatches cancel in the total. -/
def Mb1 : BoneStreams where
  is_rotation_default := false
  is_rotation_constant := true
  is_translation_default := true
  is_translation_constant := false
  rotations := { format := 2, num_samples := 1, sample_size := 4, samples := [[2, 2, 2, 2]] }
  translations := { format := 0, num_samples := 0, sample_size := 0, samples := [] }

/-- Bone set on which the constant writer's checks pass although the
per-channel stream/oracle sizes disagree. -/
def Mbones : List BoneStreams := [Mb0, Mb1]

/-- Variant of `Wb1` whose resolved rotation format (3, variable family
under `O0`) differs from `Wb1`'s (2, fixed family); the classification
flags are identical. -/
def Wb1f : BoneStreams where
  is_rotation_default := false
  is_rotation_constant := false
  is_translation_default := false
  is_translation_constant := false
  rotations := { format := 3, num_samples := 3, sample_size := 3, samples := [[1, 2, 3], [3, 4, 5], [5, 6, 7]] }
  translations := { format := 1, num_samples := 3, sample_size := 1, samples := [[9], [10], [11]] }

/-- Bone set with the same per-channel classification as `Wbones` but
different resolved formats. -/
def Wbones2 : List BoneStreams := [Wb0, Wb1f]

lemma memcpy_bytes_length (n : Nat) (l : List Nat) : (memcpy_bytes n l).length = n := by
  induction n generalizing l with
  | zero => simp [memcpy_bytes]
  | succ n ih => cases l <;> simp [memcpy_bytes, ih]

lemma memcpy_bytes_eq_self (l : List Nat) : memcpy_bytes l.length l = l := by
  induction l with
  | nil => simp [memcpy_bytes]
  | cons a l ih => simp [memcpy_bytes, ih]

lemma channelBytes_length (cond : Bool) (ss : Nat) (samples : List (List Nat))
    (i : Nat) : (channelBytes cond ss samples i).length = if cond then ss else 0 := by
  unfold channelBytes
  split <;> simp [memcpy_bytes_length]

lemma writeChannel_ok (cond : Bool) (ss : Nat) (samples : List (List Nat))
    (i : Nat) (acc : List Nat) (h : cond = true → (samples[i]?).isSome = true) :
    writeChannel cond ss samples i acc
      = Except.ok (acc ++ channelBytes cond ss samples i) := by
  unfold writeChannel channelBytes
  by_cases hc : cond = true
  · obtain ⟨s, hs⟩ := Option.isSome_iff_exists.mp (h hc)
    rw [if_pos hc, if_pos hc, hs]
    simp
  · rw [Bool.not_eq_true] at hc
    simp [hc]

lemma checkFits_ok (limit : Nat) (acc : List Nat) (h : acc.length ≤ limit) :
    checkFits limit acc = Except.ok acc := by
  simp [checkFits, h]

lemma writeConstantBone_ok (limit : Nat) (acc : List Nat) (b : BoneStreams)
    (hb : accessConstant b)
    (hlen : acc.length + (boneConstantBytes b).length ≤ limit) :
    writeConstantBone limit acc b = Except.ok (acc ++ boneConstantBytes b) := by
  obtain ⟨hr, ht⟩ := hb
  unfold writeConstantBone
  simp only [writeChannel_ok _ _ _ _ _ hr, writeChannel_ok _ _ _ _ _ ht]
  rw [List.append_assoc]
  refine checkFits_ok limit _ ?_
  simp only [boneConstantBytes, List.length_append] at hlen
  simp only [List.length_append]
  omega

lemma constantBytes_cons (b : BoneStreams) (rest : List BoneStreams) :
    constantBytes (b :: rest) = boneConstantBytes b ++ constantBytes rest := by
  simp [constantBytes]

lemma writeLoop_constant_ok : ∀ (bones : List BoneStreams) (acc : List Nat) (limit : Nat),
    (∀ b ∈ bones, accessConstant b) →
    acc.length + (constantBytes bones).length ≤ limit →
    writeLoop (writeConstantBone limit) acc bones = Except.ok (acc ++ constantBytes bones)
  | [], acc, limit, _, _ => by simp [writeLoop, constantBytes]
  | b :: rest, acc, limit, hacc, hlen => by
    have hb := hacc b (List.mem_cons_self ..)
    rw [constantBytes_cons] at hlen ⊢
    simp only [List.length_append] at hlen
    unfold writeLoop
    simp only [writeConstantBone_ok limit acc b hb (by omega)]
    rw [writeLoop_constant_ok rest (acc ++ boneConstantBytes b) limit
      (fun x hx => hacc x (List.mem_cons_of_mem _ hx))
      (by simp only [List.length_append]; omega)]
    rw [List.append_assoc]

lemma write_constant_ok (bones : List BoneStreams) (size : Nat)
    (hacc : ∀ b ∈ bones, accessConstant b)
    (hsize : (constantBytes bones).length = size) :
    write_constant_track_data bones size = Except.ok (constantBytes bones) := by
  unfold write_constant_track_data
  rw [writeLoop_constant_ok bones [] size hacc (by simp [hsize])]
  simp [hsize]

lemma constantBytes_length (O : FormatOracle) : ∀ (bones : List BoneStreams),
    (∀ b ∈ bones, wfConstant O b) →
    (constantBytes bones).length = get_constant_data_size O bones
  | [], _ => by simp [constantBytes, get_constant_data_size]
  | b :: rest, h => by
    have hb := h b (List.mem_cons_self ..)
    have ih := constantBytes_length O rest (fun x hx => h x (List.mem_cons_of_mem _ hx))
    obtain ⟨hr, ht⟩ := hb
    rw [constantBytes_cons]
    simp only [List.length_append, get_constant_data_size, boneConstantBytes,
      channelBytes_length, ih]
    cases hrc : (!b.is_rotation_default && b.is_rotation_constant)
    · cases htc : (!b.is_translation_default && b.is_translation_constant)
      · simp [hrc, htc]
      · simp [hrc, htc, ht htc]
    · cases htc : (!b.is_translation_default && b.is_translation_constant)
      · simp [hrc, htc, hr hrc]
      · simp [hrc, htc, hr hrc, ht htc]

lemma poseSlice_cons (b : BoneStreams) (rest : List BoneStreams) (t : Nat) :
    poseSlice (b :: rest) t = boneSliceBytes t b ++ poseSlice rest t := by
  simp [poseSlice]

lemma writeAnimatedBone_ok (limit t : Nat) (acc : List Nat) (b : BoneStreams)
    (hr : is_rotation_animated b = true → (b.rotations.samples[t]?).isSome = true)
    (ht : is_translation_animated b = true → (b.translations.samples[t]?).isSome = true)
    (hlen : acc.length + (boneSliceBytes t b).length ≤ limit) :
    writeAnimatedBone limit t acc b = Except.ok (acc ++ boneSliceBytes t b) := by
  unfold writeAnimatedBone
  simp only [writeChannel_ok _ _ _ _ _ hr, writeChannel_ok _ _ _ _ _ ht]
  rw [List.append_assoc]
  refine checkFits_ok limit _ ?_
  simp only [boneSliceBytes, List.length_append] at hlen
  simp only [List.length_append]
  omega

lemma writeLoop_animated_ok (limit t : Nat) :
    ∀ (bones : List BoneStreams) (acc : List Nat),
    (∀ b ∈ bones,
      (is_rotation_animated b = true → (b.rotations.samples[t]?).isSome = true)
      ∧ (is_translation_animated b = true → (b.translations.samples[t]?).isSome = true)) →
    acc.length + (poseSlice bones t).length ≤ limit →
    writeLoop (writeAnimatedBone limit t) acc bones
      = Except.ok (acc ++ poseSlice bones t)
  | [], acc, _, _ => by simp [writeLoop, poseSlice]
  | b :: rest, acc, hacc, hlen => by
    obtain ⟨hr, ht⟩ := hacc b (List.mem_cons_self ..)
    rw [poseSlice_cons] at hlen ⊢
    simp only [List.length_append] at hlen
    unfold writeLoop
    simp only [writeAnimatedBone_ok limit t acc b hr ht (by omega)]
    rw [writeLoop_animated_ok limit t rest (acc ++ boneSliceBytes t b)
      (fun x hx => hacc x (List.mem_cons_of_mem _ hx))
      (by simp only [List.length_append]; omega)]
    rw [List.append_assoc]

lemma writeLoop_times_ok (limit : Nat) (bones : List BoneStreams) :
    ∀ (ts : List Nat) (acc : List Nat),
    (∀ t ∈ ts, ∀ b ∈ bones,
      (is_rotation_animated b = true → (b.rotations.samples[t]?).isSome = true)
      ∧ (is_translation_animated b = true → (b.translations.samples[t]?).isSome = true)) →
    acc.length + ((ts.map (poseSlice bones)).flatten).length ≤ limit →
    writeLoop (fun acc2 t => writeLoop (writeAnimatedBone limit t) acc2 bones) acc ts
      = Except.ok (acc ++ (ts.map (poseSlice bones)).flatten)
  | [], acc, _, _ => by simp [writeLoop]
  | t :: ts, acc, hacc, hlen => by
    simp only [List.map_cons, List.flatten_cons, List.length_append] at hlen
    unfold writeLoop
    simp only [writeLoop_animated_ok limit t bones acc
      (fun b hb => hacc t (List.mem_cons_self ..) b hb) (by omega)]
    rw [writeLoop_times_ok limit bones ts (acc ++ poseSlice bones t)
      (fun u hu b hb => hacc u (List.mem_cons_of_mem _ hu) b hb)
      (by simp only [List.length_append]; omega)]
    simp [List.append_assoc]

lemma poseSlice_length (O : FormatOracle) : ∀ (bones : List BoneStreams),
    (∀ b ∈ bones, wfAnimated O b) → ∀ t : Nat,
    (poseSlice bones t).length = (get_animated_data_size O bones).2
  | [], _, t => by simp [poseSlice, get_animated_data_size]
  | b :: rest, h, t => by
    obtain ⟨hr, ht⟩ := h b (List.mem_cons_self ..)
    have ih := poseSlice_length O rest (fun x hx => h x (List.mem_cons_of_mem _ hx)) t
    rw [poseSlice_cons]
    simp only [List.length_append, get_animated_data_size, boneSliceBytes,
      channelBytes_length, ih]
    cases har : is_rotation_animated b
    · cases hat : is_translation_animated b
      · simp [har, hat]
      · simp [har, hat, ht hat]
    · cases hat : is_translation_animated b
      · simp [har, hat, hr har]
      · simp [har, hat, hr har, ht hat]

lemma animatedBytes_succ (bones : List BoneStreams) (n : Nat) :
    animatedBytes bones (n + 1) = animatedBytes bones n ++ poseSlice bones n := by
  simp [animatedBytes, List.range_succ]

lemma animatedBytes_length (O : FormatOracle) (bones : List BoneStreams)
    (hwf : ∀ b ∈ bones, wfAnimated O b) : ∀ n : Nat,
    (animatedBytes bones n).length = n * (get_animated_data_size O bones).2
  | 0 => by simp [animatedBytes]
  | n + 1 => by
    rw [animatedBytes_succ, List.length_append,
      animatedBytes_length O bones hwf n, poseSlice_length O bones hwf n,
      Nat.succ_mul]

lemma animated_total_eq (O : FormatOracle) (N : Nat) : ∀ (bones : List BoneStreams),
    (∀ b ∈ bones, sharedSampleCount N b) →
    (get_animated_data_size O bones).1 = N * (get_animated_data_size O bones).2
  | [], _ => by simp [get_animated_data_size]
  | b :: rest, h => by
    obtain ⟨hr, ht⟩ := h b (List.mem_cons_self ..)
    have ih := animated_total_eq O N rest (fun x hx => h x (List.mem_cons_of_mem _ hx))
    simp only [get_animated_data_size]
    cases har : is_rotation_animated b
    · cases hat : is_translation_animated b
      · simp [har, hat, ih]
      · simp [har, hat, ht hat, ih]
        ring
    · cases hat : is_translation_animated b
      · simp [har, hat, hr har, ih]
        ring
      · simp [har, hat, hr har, ht hat, ih]
        ring

lemma get_animated_num_samples_eq (N : Nat) : ∀ (bones : List BoneStreams),
    (∀ b ∈ bones, sharedSampleCount N b) →
    (∃ b ∈ bones, is_rotation_animated b = true ∨ is_translation_animated b = true) →
    get_animated_num_samples bones = N
  | [], _, hex => by simp at hex
  | b :: rest, h, hex => by
    obtain ⟨hr, ht⟩ := h b (List.mem_cons_self ..)
    unfold get_animated_num_samples
    cases har : is_rotation_animated b
    · cases hat : is_translation_animated b
      · simp only [har, hat, Bool.false_eq_true, if_false]
        refine get_animated_num_samples_eq N rest
          (fun x hx => h x (List.mem_cons_of_mem _ hx)) ?_
        obtain ⟨x, hx, hor⟩ := hex
        rcases List.mem_cons.mp hx with hh | hh
        · subst hh
          rw [har, hat] at hor
          simp at hor
        · exact ⟨x, hh, hor⟩
      · simp [har, hat, ht hat]
    · simp [har, hr har]

lemma write_animated_ok (bones : List BoneStreams) (N size : Nat)
    (hgan : get_animated_num_samples bones = N) (hN : 1 < N)
    (hacc : ∀ b ∈ bones, accessAnimated N b)
    (hsize : (animatedBytes bones N).length = size) :
    write_animated_track_data bones size = Except.ok (animatedBytes bones N) := by
  unfold write_animated_track_data
  rw [hgan, if_pos hN]
  rw [writeLoop_times_ok size bones (List.range N) []
    (fun t htm b hb => by
      obtain ⟨hr, ht⟩ := hacc b hb
      have htn : t < N := List.mem_range.mp htm
      constructor
      · intro ha
        rw [List.getElem?_eq_getElem (Nat.lt_of_lt_of_le htn (hr ha))]
        rfl
      · intro ha
        rw [List.getElem?_eq_getElem (Nat.lt_of_lt_of_le htn (ht ha))]
        rfl)
    (by
      simp only [List.length_nil, Nat.zero_add]
      exact Nat.le_of_eq hsize)]
  simp only [List.nil_append]
  have he : ((List.range N).map (poseSlice bones)).flatten = animatedBytes bones N := rfl
  rw [he]
  simp [hsize]

lemma flatten_slice : ∀ (l : List (List Nat)) (s : Nat), (∀ x ∈ l, x.length = s) →
    ∀ t, t < l.length → ((l.flatten).drop (t * s)).take s = l.getD t []
  | [], _, _, t, ht => by simp at ht
  | x :: rest, s, h, 0, _ => by
    have hx := h x (List.mem_cons_self ..)
    simp only [List.flatten_cons, Nat.zero_mul, List.drop_zero, List.getD_cons_zero]
    exact List.take_left' hx
  | x :: rest, s, h, t + 1, ht => by
    have hx := h x (List.mem_cons_self ..)
    simp only [List.flatten_cons, List.getD_cons_succ]
    have hmul : (t + 1) * s = x.length + t * s := by rw [hx]; ring
    rw [hmul, ← List.drop_drop, List.drop_left]
    exact flatten_slice rest s (fun y hy => h y (List.mem_cons_of_mem _ hy)) t
      (by simpa using ht)

lemma map_range_getD (f : Nat → List Nat) (N t : Nat) (h : t < N) :
    ((List.range N).map f).getD t [] = f t := by
  rw [List.getD_eq_getElem?_getD, List.getElem?_map, List.getElem?_range h]
  rfl

lemma animatedBytes_slice (O : FormatOracle) (bones : List BoneStreams) (N : Nat)
    (hwf : ∀ b ∈ bones, wfAnimated O b) (t : Nat) (ht : t < N) :
    ((animatedBytes bones N).drop (t * (get_animated_data_size O bones).2)).take
      (get_animated_data_size O bones).2 = poseSlice bones t := by
  unfold animatedBytes
  rw [flatten_slice ((List.range N).map (poseSlice bones))
    (get_animated_data_size O bones).2
    (fun x hx => by
      obtain ⟨u, _, hu⟩ := List.mem_map.mp hx
      rw [← hu]
      exact poseSlice_length O bones hwf u)
    t (by simpa using ht)]
  exact map_range_getD (poseSlice bones) N t ht

/-- The clip-level single-byte contract of the format table: every
contributing channel's resolved format id fits in one byte. -/
abbrev formatFits (O : FormatOracle) (rotation_format translation_format : Nat)
    (b : BoneStreams) : Prop :=
  ((O.is_rotation_format_variable rotation_format && is_rotation_animated b) = true →
    b.rotations.format < 256)
  ∧ ((O.is_vector_format_variable translation_format && is_translation_animated b) = true →
    b.translations.format < 256)

lemma writeFormatChannel_ok (cond : Bool) (fmt : Nat) (acc : List Nat)
    (h : cond = true → fmt < 256) :
    writeFormatChannel cond fmt acc
      = Except.ok (acc ++ if cond then [fmt] else []) := by
  unfold writeFormatChannel safe_static_cast_u8
  by_cases hc : cond = true
  · simp [hc, h hc]
  · rw [Bool.not_eq_true] at hc
    simp [hc]

lemma writeFormatBone_ok (O : FormatOracle) (limit rf tf : Nat) (acc : List Nat)
    (b : BoneStreams) (hb : formatFits O rf tf b)
    (hlen : acc.length + (boneFormatBytes O rf tf b).length ≤ limit) :
    writeFormatBone O limit rf tf acc b
      = Except.ok (acc ++ boneFormatBytes O rf tf b) := by
  obtain ⟨hr, ht⟩ := hb
  unfold writeFormatBone
  simp only [writeFormatChannel_ok _ _ _ hr, writeFormatChannel_ok _ _ _ ht]
  have he : boneFormatBytes O rf tf b
      = (if (O.is_rotation_format_variable rf && is_rotation_animated b) = true then
          [b.rotations.format] else [])
        ++ (if (O.is_vector_format_variable tf && is_translation_animated b) = true then
          [b.translations.format] else []) := rfl
  rw [List.append_assoc, ← he]
  refine checkFits_ok limit _ ?_
  simp only [List.length_append] at hlen ⊢
  omega

lemma formatTableBytes_cons (O : FormatOracle) (rf tf : Nat) (b : BoneStreams)
    (rest : List BoneStreams) :
    formatTableBytes O rf tf (b :: rest)
      = boneFormatBytes O rf tf b ++ formatTableBytes O rf tf rest := by
  simp [formatTableBytes]

lemma writeLoop_format_ok (O : FormatOracle) (limit rf tf : Nat) :
    ∀ (bones : List BoneStreams) (acc : List Nat),
    (∀ b ∈ bones, formatFits O rf tf b) →
    acc.length + (formatTableBytes O rf tf bones).length ≤ limit →
    writeLoop (writeFormatBone O limit rf tf) acc bones
      = Except.ok (acc ++ formatTableBytes O rf tf bones)
  | [], acc, _, _ => by simp [writeLoop, formatTableBytes]
  | b :: rest, acc, hfit, hlen => by
    have hb := hfit b (List.mem_cons_self ..)
    rw [formatTableBytes_cons] at hlen ⊢
    simp only [List.length_append] at hlen
    unfold writeLoop
    simp only [writeFormatBone_ok O limit rf tf acc b hb (by omega)]
    rw [writeLoop_format_ok O limit rf tf rest (acc ++ boneFormatBytes O rf tf b)
      (fun x hx => hfit x (List.mem_cons_of_mem _ hx))
      (by simp only [List.length_append]; omega)]
    rw [List.append_assoc]

lemma formatTableBytes_length (O : FormatOracle) (rf tf : Nat) :
    ∀ (bones : List BoneStreams),
    (formatTableBytes O rf tf bones).length
      = get_format_per_track_data_size O rf tf bones
  | [] => by simp [formatTableBytes, get_format_per_track_data_size]
  | b :: rest => by
    rw [formatTableBytes_cons]
    simp only [List.length_append, get_format_per_track_data_size,
      formatTableBytes_length O rf tf rest]
    have he : boneFormatBytes O rf tf b
        = (if (O.is_rotation_format_variable rf && is_rotation_animated b) = true then
            [b.rotations.format] else [])
          ++ (if (O.is_vector_format_variable tf && is_translation_animated b) = true then
            [b.translations.format] else []) := rfl
    rw [he]
    cases hrc : (O.is_rotation_format_variable rf && is_rotation_animated b)
    · cases htc : (O.is_vector_format_variable tf && is_translation_animated b)
      · simp [hrc, htc]
      · simp [hrc, htc]
    · cases htc : (O.is_vector_format_variable tf && is_translation_animated b)
      · simp [hrc, htc]
      · simp [hrc, htc]

lemma write_format_ok (O : FormatOracle) (bones : List BoneStreams) (rf tf size : Nat)
    (hfit : ∀ b ∈ bones, formatFits O rf tf b)
    (hsize : (formatTableBytes O rf tf bones).length = size) :
    write_format_per_track_data O bones rf tf size
      = Except.ok (formatTableBytes O rf tf bones) := by
  unfold write_format_per_track_data
  rw [writeLoop_format_ok O size rf tf bones [] hfit (by simp [hsize])]
  simp [hsize]

lemma is_rotation_animated_congr (a b : BoneStreams) (h : sameCategories a b) :
    is_rotation_animated a = is_rotation_animated b := by
  obtain ⟨h1, h2, _, _⟩ := h
  simp [is_rotation_animated, h1, h2]

lemma is_translation_animated_congr (a b : BoneStreams) (h : sameCategories a b) :
    is_translation_animated a = is_translation_animated b := by
  obtain ⟨_, _, h3, h4⟩ := h
  simp [is_translation_animated, h3, h4]

lemma format_size_same_categories (O : FormatOracle) (rf tf : Nat) :
    ∀ {bones bones2 : List BoneStreams}, List.Forall₂ sameCategories bones bones2 →
    get_format_per_track_data_size O rf tf bones
      = get_format_per_track_data_size O rf tf bones2 := by
  intro bones bones2 h
  induction h with
  | nil => rfl
  | cons hab _ ih =>
    simp only [get_format_per_track_data_size, ih,
      is_rotation_animated_congr _ _ hab, is_translation_animated_congr _ _ hab]

lemma write_animated_reject (bones : List BoneStreams) (size : Nat)
    (h : get_animated_num_samples bones ≤ 1) :
    write_animated_track_data bones size = Except.error WriteError.noSamples := by
  unfold write_animated_track_data
  rw [if_neg (by omega)]

lemma all_default_no_animated (bones : List BoneStreams)
    (h : ∀ b ∈ bones, b.is_rotation_default = true ∧ b.is_translation_default = true) :
    ∀ b ∈ bones, is_rotation_animated b = false ∧ is_translation_animated b = false := by
  intro b hb
  obtain ⟨h1, h2⟩ := h b hb
  simp [is_rotation_animated, is_translation_animated, h1, h2]

lemma gan_zero : ∀ (bones : List BoneStreams),
    (∀ b ∈ bones, is_rotation_animated b = false ∧ is_translation_animated b = false) →
    get_animated_num_samples bones = 0
  | [], _ => rfl
  | b :: rest, h => by
    obtain ⟨h1, h2⟩ := h b (List.mem_cons_self ..)
    unfold get_animated_num_samples
    rw [h1, h2]
    simp only [Bool.false_eq_true, if_false]
    exact gan_zero rest (fun x hx => h x (List.mem_cons_of_mem _ hx))

lemma constant_size_all_default (O : FormatOracle) : ∀ (bones : List BoneStreams),
    (∀ b ∈ bones, b.is_rotation_default = true ∧ b.is_translation_default = true) →
    get_constant_data_size O bones = 0
  | [], _ => rfl
  | b :: rest, h => by
    obtain ⟨h1, h2⟩ := h b (List.mem_cons_self ..)
    simp [get_constant_data_size, h1, h2,
      constant_size_all_default O rest (fun x hx => h x (List.mem_cons_of_mem _ hx))]

lemma animated_size_all_default (O : FormatOracle) : ∀ (bones : List BoneStreams),
    (∀ b ∈ bones, b.is_rotation_default = true ∧ b.is_translation_default = true) →
    get_animated_data_size O bones = (0, 0)
  | [], _ => rfl
  | b :: rest, h => by
    obtain ⟨h1, h2⟩ := h b (List.mem_cons_self ..)
    simp [get_animated_data_size, is_rotation_animated, is_translation_animated, h1, h2,
      animated_size_all_default O rest (fun x hx => h x (List.mem_cons_of_mem _ hx))]

lemma format_size_all_default (O : FormatOracle) (rf tf : Nat) :
    ∀ (bones : List BoneStreams),
    (∀ b ∈ bones, b.is_rotation_default = true ∧ b.is_translation_default = true) →
    get_format_per_track_data_size O rf tf bones = 0
  | [], _ => rfl
  | b :: rest, h => by
    obtain ⟨h1, h2⟩ := h b (List.mem_cons_self ..)
    simp [get_format_per_track_data_size, is_rotation_animated, is_translation_animated,
      h1, h2,
      format_size_all_default O rf tf rest (fun x hx => h x (List.mem_cons_of_mem _ hx))]

lemma constantBytes_all_default : ∀ (bones : List BoneStreams),
    (∀ b ∈ bones, b.is_rotation_default = true ∧ b.is_translation_default = true) →
    constantBytes bones = []
  | [], _ => rfl
  | b :: rest, h => by
    obtain ⟨h1, h2⟩ := h b (List.mem_cons_self ..)
    rw [constantBytes_cons]
    simp [boneConstantBytes, channelBytes, h1, h2,
      constantBytes_all_default rest (fun x hx => h x (List.mem_cons_of_mem _ hx))]

lemma formatTableBytes_all_default (O : FormatOracle) (rf tf : Nat) :
    ∀ (bones : List BoneStreams),
    (∀ b ∈ bones, b.is_rotation_default = true ∧ b.is_translation_default = true) →
    formatTableBytes O rf tf bones = []
  | [], _ => rfl
  | b :: rest, h => by
    obtain ⟨h1, h2⟩ := h b (List.mem_cons_self ..)
    rw [formatTableBytes_cons]
    simp [boneFormatBytes, is_rotation_animated, is_translation_animated, h1, h2,
      formatTableBytes_all_default O rf tf rest
        (fun x hx => h x (List.mem_cons_of_mem _ hx))]

lemma writeAnimatedBone_cases (limit t : Nat) (acc : List Nat) (b : BoneStreams)
    (hr : is_rotation_animated b = true → t < b.rotations.samples.length)
    (ht : is_translation_animated b = true → t < b.translations.samples.length) :
    writeAnimatedBone limit t acc b = Except.ok (acc ++ boneSliceBytes t b)
    ∨ writeAnimatedBone limit t acc b = Except.error WriteError.wroteTooMuch := by
  have hr2 : is_rotation_animated b = true → (b.rotations.samples[t]?).isSome = true :=
    fun ha => by rw [List.getElem?_eq_getElem (hr ha)]; rfl
  have ht2 : is_translation_animated b = true → (b.translations.samples[t]?).isSome = true :=
    fun ha => by rw [List.getElem?_eq_getElem (ht ha)]; rfl
  unfold writeAnimatedBone
  simp only [writeChannel_ok _ _ _ _ _ hr2, writeChannel_ok _ _ _ _ _ ht2]
  unfold checkFits
  split
  · refine Or.inl ?_
    rw [List.append_assoc]
    rfl
  · exact Or.inr rfl

lemma writeLoop_animated_cases (limit t : Nat) : ∀ (bones : List BoneStreams)
    (acc : List Nat),
    (∀ b ∈ bones,
      (is_rotation_animated b = true → t < b.rotations.samples.length)
      ∧ (is_translation_animated b = true → t < b.translations.samples.length)) →
    (∃ a, writeLoop (writeAnimatedBone limit t) acc bones = Except.ok a)
    ∨ writeLoop (writeAnimatedBone limit t) acc bones
        = Except.error WriteError.wroteTooMuch
  | [], acc, _ => Or.inl ⟨acc, rfl⟩
  | b :: rest, acc, h => by
    obtain ⟨hr, ht⟩ := h b (List.mem_cons_self ..)
    unfold writeLoop
    rcases writeAnimatedBone_cases limit t acc b hr ht with hok | herr
    · rw [hok]
      exact writeLoop_animated_cases limit t rest (acc ++ boneSliceBytes t b)
        (fun x hx => h x (List.mem_cons_of_mem _ hx))
    · rw [herr]
      exact Or.inr rfl

lemma writeLoop_times_cases (limit : Nat) (bones : List BoneStreams) :
    ∀ (ts : List Nat) (acc : List Nat),
    (∀ t ∈ ts, ∀ b ∈ bones,
      (is_rotation_animated b = true → t < b.rotations.samples.length)
      ∧ (is_translation_animated b = true → t < b.translations.samples.length)) →
    (∃ a, writeLoop (fun acc2 t => writeLoop (writeAnimatedBone limit t) acc2 bones)
        acc ts = Except.ok a)
    ∨ writeLoop (fun acc2 t => writeLoop (writeAnimatedBone limit t) acc2 bones) acc ts
        = Except.error WriteError.wroteTooMuch
  | [], acc, _ => Or.inl ⟨acc, rfl⟩
  | t :: ts, acc, h => by
    unfold writeLoop
    rcases writeLoop_animated_cases limit t bones acc (h t (List.mem_cons_self ..)) with
      ⟨a, ha⟩ | herr
    · rw [ha]
      exact writeLoop_times_cases limit bones ts a
        (fun u hu => h u (List.mem_cons_of_mem _ hu))
    · rw [herr]
      exact Or.inr rfl

lemma constantSamples_cons (b : BoneStreams) (rest : List BoneStreams) :
    constantSamples (b :: rest)
      = ((if !b.is_rotation_default && b.is_rotation_constant then
            [sampleAt b.rotations 0] else [])
        ++ (if !b.is_translation_default && b.is_translation_constant then
            [sampleAt b.translations 0] else []))
        ++ constantSamples rest := by
  simp [constantSamples]

lemma channelBytes_exact (cond : Bool) (s : TrackStream)
    (hex : cond = true → (sampleAt s 0).length = s.sample_size) (hc : cond = true) :
    channelBytes cond s.sample_size s.samples 0 = sampleAt s 0 := by
  unfold channelBytes
  rw [if_pos hc]
  have h2 : (s.samples[0]?.getD []).length = s.sample_size := by
    simpa [sampleAt] using hex hc
  rw [← h2, memcpy_bytes_eq_self]
  rfl

lemma readChannelChunk_false (n : Nat) (st : List (List Nat) × List Nat) :
    readChannelChunk false n st = st := rfl

lemma readChannelChunk_true (n : Nat) (chunk tail2 : List Nat)
    (hacc : List (List Nat)) (h : chunk.length = n) :
    readChannelChunk true n (hacc, chunk ++ tail2) = (hacc ++ [chunk], tail2) := by
  simp [readChannelChunk, List.take_left' h, List.drop_left' h]

lemma read_constant_of_writer (O : FormatOracle) : ∀ (bones : List BoneStreams)
    (extra : List Nat),
    (∀ b ∈ bones, wfConstant O b) → (∀ b ∈ bones, exactConstant b) →
    read_constant_track_data O bones (constantBytes bones ++ extra)
      = constantSamples bones
  | [], extra, _, _ => by simp [read_constant_track_data, constantSamples]
  | b :: rest, extra, hwf, hex => by
    obtain ⟨hwr, hwt⟩ := hwf b (List.mem_cons_self ..)
    obtain ⟨her, het⟩ := hex b (List.mem_cons_self ..)
    have ih := read_constant_of_writer O rest extra
      (fun x hx => hwf x (List.mem_cons_of_mem _ hx))
      (fun x hx => hex x (List.mem_cons_of_mem _ hx))
    rw [constantBytes_cons, List.append_assoc]
    unfold read_constant_track_data
    rw [constantSamples_cons]
    have hbone : boneConstantBytes b
        = channelBytes (!b.is_rotation_default && b.is_rotation_constant)
            b.rotations.sample_size b.rotations.samples 0
          ++ channelBytes (!b.is_translation_default && b.is_translation_constant)
            b.translations.sample_size b.translations.samples 0 := rfl
    rw [hbone, List.append_assoc]
    cases hrc : (!b.is_rotation_default && b.is_rotation_constant)
    · cases htc : (!b.is_translation_default && b.is_translation_constant)
      · simp only [hrc, htc, channelBytes, Bool.false_eq_true, if_false,
          List.nil_append, readChannelChunk_false, ih]
      · have hsT : channelBytes (!b.is_translation_default && b.is_translation_constant)
            b.translations.sample_size b.translations.samples 0
            = sampleAt b.translations 0 := channelBytes_exact _ _ het htc
        rw [htc] at hsT
        have hlT : (sampleAt b.translations 0).length
            = O.get_packed_vector_size b.translations.format := by
          rw [het htc, hwt htc]
        simp only [hrc, htc, Bool.false_eq_true, if_false, if_true]
        rw [hsT,
          show channelBytes false b.rotations.sample_size b.rotations.samples 0
            = [] from rfl]
        simp only [List.nil_append]
        rw [readChannelChunk_false,
          readChannelChunk_true _ _ _ _ hlT]
        simp [ih]
    · have hsR : channelBytes (!b.is_rotation_default && b.is_rotation_constant)
          b.rotations.sample_size b.rotations.samples 0
          = sampleAt b.rotations 0 := channelBytes_exact _ _ her hrc
      rw [hrc] at hsR
      have hlR : (sampleAt b.rotations 0).length
          = O.get_packed_rotation_size b.rotations.format := by
        rw [her hrc, hwr hrc]
      cases htc : (!b.is_translation_default && b.is_translation_constant)
      · simp only [hrc, htc, Bool.false_eq_true, if_false, if_true]
        rw [hsR,
          show channelBytes false b.translations.sample_size b.translations.samples 0
            = [] from rfl]
        simp only [List.nil_append]
        rw [readChannelChunk_true _ _ _ _ hlR, readChannelChunk_false]
        simp [ih]
      · have hsT : channelBytes (!b.is_translation_default && b.is_translation_constant)
            b.translations.sample_size b.translations.samples 0
            = sampleAt b.translations 0 := channelBytes_exact _ _ het htc
        rw [htc] at hsT
        have hlT : (sampleAt b.translations 0).length
            = O.get_packed_vector_size b.translations.format := by
          rw [het htc, hwt htc]
        simp only [hrc, htc, if_true]
        rw [hsR, hsT, readChannelChunk_true _ _ _ _ hlR,
          readChannelChunk_true _ _ _ _ hlT]
        simp [ih]


/-- Claim C1: for every bone set satisfying the collaborator-interface
invariants (each constant-and-not-default channel stores a sample 0 and its
`get_sample_size()` is the packed size of its resolved format), the bytes
written by `write_constant_track_data` — one packed sample per
constant-and-not-default channel, bones ascending, rotation before
translation — number exactly `get_constant_data_size`, so with a
destination of exactly that size both the wrote-too-much and
wrote-too-little checks pass. -/
theorem constant_region_size_write_agreement (O : FormatOracle)
    (bones : List BoneStreams)
    (hwf : ∀ b ∈ bones, wfConstant O b)
    (hacc : ∀ b ∈ bones, accessConstant b) :
    write_constant_track_data bones (get_constant_data_size O bones)
      = Except.ok (constantBytes bones)
    ∧ (constantBytes bones).length = get_constant_data_size O bones := by
  have hlen := constantBytes_length O bones hwf
  exact ⟨write_constant_ok bones _ hacc hlen, hlen⟩

/-- Witness for C1 at the concrete oracle `O0` and bone set `Wbones`. -/
theorem constant_region_size_write_agreement_witness :
    write_constant_track_data Wbones (get_constant_data_size O0 Wbones)
      = Except.ok (constantBytes Wbones)
    ∧ (constantBytes Wbones).length = get_constant_data_size O0 Wbones :=
  constant_region_size_write_agreement O0 Wbones (by decide) (by decide)

/-- Claim C2: when every animated channel shares the clip sample count `N`
(with at least one animated channel and `N > 1`, the animated writer's
documented precondition), `get_animated_data_size` returns a total equal to
`N` times the per-pose stride it reports, and `write_animated_track_data`
on a buffer of exactly that total writes exactly that many bytes — its
end-of-buffer equality check passes. -/
theorem animated_region_total_and_writer (O : FormatOracle)
    (bones : List BoneStreams) (N : Nat)
    (hsh : ∀ b ∈ bones, sharedSampleCount N b)
    (hwf : ∀ b ∈ bones, wfAnimated O b)
    (hacc : ∀ b ∈ bones, accessAnimated N b)
    (hex : ∃ b ∈ bones, is_rotation_animated b = true ∨ is_translation_animated b = true)
    (hN : 1 < N) :
    (get_animated_data_size O bones).1 = N * (get_animated_data_size O bones).2
    ∧ write_animated_track_data bones (get_animated_data_size O bones).1
        = Except.ok (animatedBytes bones N)
    ∧ (animatedBytes bones N).length = (get_animated_data_size O bones).1 := by
  have htotal := animated_total_eq O N bones hsh
  have hlen := animatedBytes_length O bones hwf N
  have hgan := get_animated_num_samples_eq N bones hsh hex
  exact ⟨htotal,
    write_animated_ok bones N _ hgan hN hacc (by rw [hlen, htotal]),
    by rw [hlen, htotal]⟩

/-- Witness for C2 at `O0` and `Wbones` (shared sample count 3). -/
theorem animated_region_total_and_writer_witness :
    (get_animated_data_size O0 Wbones).1 = 3 * (get_animated_data_size O0 Wbones).2
    ∧ write_animated_track_data Wbones (get_animated_data_size O0 Wbones).1
        = Except.ok (animatedBytes Wbones 3)
    ∧ (animatedBytes Wbones 3).length = (get_animated_data_size O0 Wbones).1 :=
  animated_region_total_and_writer O0 Wbones 3 (by decide) (by decide) (by decide)
    (by decide) (by decide)

/-- Claim C3: the animated writer orders output time-outer / bone-inner, so
for every `t < N` the byte range `[t * stride, (t+1) * stride)` of the
animated region is exactly the pose slice of time `t` — every animated
channel's packed sample at `t`, bones ascending, rotation before
translation, with no bytes of neighboring slices. -/
theorem animated_writer_pose_slices (O : FormatOracle)
    (bones : List BoneStreams) (N : Nat)
    (hsh : ∀ b ∈ bones, sharedSampleCount N b)
    (hwf : ∀ b ∈ bones, wfAnimated O b)
    (hacc : ∀ b ∈ bones, accessAnimated N b)
    (hex : ∃ b ∈ bones, is_rotation_animated b = true ∨ is_translation_animated b = true)
    (hN : 1 < N) :
    write_animated_track_data bones (get_animated_data_size O bones).1
      = Except.ok (animatedBytes bones N)
    ∧ ∀ t, t < N →
      ((animatedBytes bones N).drop (t * (get_animated_data_size O bones).2)).take
        (get_animated_data_size O bones).2 = poseSlice bones t := by
  have htotal := animated_total_eq O N bones hsh
  have hlen := animatedBytes_length O bones hwf N
  have hgan := get_animated_num_samples_eq N bones hsh hex
  exact ⟨write_animated_ok bones N _ hgan hN hacc (by rw [hlen, htotal]),
    fun t ht => animatedBytes_slice O bones N hwf t ht⟩

/-- Witness for C3 at `O0` and `Wbones`. -/
theorem animated_writer_pose_slices_witness :
    write_animated_track_data Wbones (get_animated_data_size O0 Wbones).1
      = Except.ok (animatedBytes Wbones 3)
    ∧ ∀ t, t < 3 →
      ((animatedBytes Wbones 3).drop (t * (get_animated_data_size O0 Wbones).2)).take
        (get_animated_data_size O0 Wbones).2 = poseSlice Wbones t :=
  animated_writer_pose_slices O0 Wbones 3 (by decide) (by decide) (by decide)
    (by decide) (by decide)

/-- Claim C4: a channel contributes exactly one format-table byte iff it is
animated and the clip-level format family is variable; the byte is the
channel's resolved format id, and the writer's byte count equals
`get_format_per_track_data_size`. -/
theorem format_table_selectivity (O : FormatOracle) (bones : List BoneStreams)
    (rf tf : Nat) (hfit : ∀ b ∈ bones, formatFits O rf tf b) :
    write_format_per_track_data O bones rf tf
        (get_format_per_track_data_size O rf tf bones)
      = Except.ok (formatTableBytes O rf tf bones)
    ∧ (formatTableBytes O rf tf bones).length
        = get_format_per_track_data_size O rf tf bones
    ∧ ∀ b ∈ bones, boneFormatBytes O rf tf b
        = (if O.is_rotation_format_variable rf && is_rotation_animated b then
            [b.rotations.format] else [])
          ++ (if O.is_vector_format_variable tf && is_translation_animated b then
            [b.translations.format] else []) := by
  have hlen := formatTableBytes_length O rf tf bones
  exact ⟨write_format_ok O bones rf tf _ hfit hlen, hlen, fun b _ => rfl⟩

/-- Witness for C4 at `O0`, `Wbones`, clip-level formats 1/1 (variable). -/
theorem format_table_selectivity_witness :
    write_format_per_track_data O0 Wbones 1 1
        (get_format_per_track_data_size O0 1 1 Wbones)
      = Except.ok (formatTableBytes O0 1 1 Wbones)
    ∧ (formatTableBytes O0 1 1 Wbones).length
        = get_format_per_track_data_size O0 1 1 Wbones
    ∧ ∀ b ∈ Wbones, boneFormatBytes O0 1 1 b
        = (if O0.is_rotation_format_variable 1 && is_rotation_animated b then
            [b.rotations.format] else [])
          ++ (if O0.is_vector_format_variable 1 && is_translation_animated b then
            [b.translations.format] else []) :=
  format_table_selectivity O0 Wbones 1 1 (by decide)

/-- Claim C5: calling `write_animated_track_data` when the clip's shared
sample count is 0 or 1 fails the `num_samples > 1` invariant check before
any sample bytes are copied; it never produces output. -/
theorem animated_writer_rejects_small_sample_count (bones : List BoneStreams)
    (size : Nat) (h : get_animated_num_samples bones ≤ 1) :
    write_animated_track_data bones size = Except.error WriteError.noSamples :=
  write_animated_reject bones size h

/-- Witness for C5 at the all-default bone set (shared sample count 0). -/
theorem animated_writer_rejects_small_sample_count_witness :
    write_animated_track_data Dbones 0 = Except.error WriteError.noSamples :=
  animated_writer_rejects_small_sample_count Dbones 0 (by decide)

/-- Claim C6: whether a channel occupies a format-table slot is decided
solely by the clip-level `rotation_format` / `translation_format` — any two
bone sets with the same per-channel classification get the same table size
no matter their resolved per-channel formats — and the writer's emitted
byte count agrees with the sizer for every bone set. -/
theorem format_table_clip_level_decision (O : FormatOracle) (rf tf : Nat)
    (bones bones2 : List BoneStreams)
    (hcat : List.Forall₂ sameCategories bones bones2)
    (hfit : ∀ b ∈ bones, formatFits O rf tf b) :
    get_format_per_track_data_size O rf tf bones
      = get_format_per_track_data_size O rf tf bones2
    ∧ write_format_per_track_data O bones rf tf
        (get_format_per_track_data_size O rf tf bones)
        = Except.ok (formatTableBytes O rf tf bones)
    ∧ (formatTableBytes O rf tf bones).length
        = get_format_per_track_data_size O rf tf bones := by
  have hlen := formatTableBytes_length O rf tf bones
  exact ⟨format_size_same_categories O rf tf hcat,
    write_format_ok O bones rf tf _ hfit hlen, hlen⟩

/-- Witness for C6: `Wbones2` differs from `Wbones` only in resolved
formats (bone 1's rotation format moves to the other family), and the
table size is unchanged. -/
theorem format_table_clip_level_decision_witness :
    get_format_per_track_data_size O0 1 1 Wbones
      = get_format_per_track_data_size O0 1 1 Wbones2
    ∧ write_format_per_track_data O0 Wbones 1 1
        (get_format_per_track_data_size O0 1 1 Wbones)
        = Except.ok (formatTableBytes O0 1 1 Wbones)
    ∧ (formatTableBytes O0 1 1 Wbones).length
        = get_format_per_track_data_size O0 1 1 Wbones :=
  format_table_clip_level_decision O0 1 1 Wbones Wbones2
    (List.Forall₂.cons (by decide) (List.Forall₂.cons (by decide) List.Forall₂.nil))
    (by decide)

/-- Claim C7 counterexample: on the all-default bone set `Dbones` the
animated writer does not complete without a reported invariant violation —
its shared-sample-count check fires (`get_animated_num_samples` of a clip
with no animated channel is 0), refuting the claim that all three writers
complete without error. -/
theorem all_default_animated_writer_counterexample :
    (∀ b ∈ Dbones, b.is_rotation_default = true ∧ b.is_translation_default = true)
    ∧ write_animated_track_data Dbones 0 = Except.error WriteError.noSamples :=
  ⟨by decide, rfl⟩

/-- Claim C7 as amended: for an all-default bone set the three size
functions return 0 and the constant and format-table writers complete on
zero-length buffers without a reported invariant violation, but the
animated writer rejects the clip with its sample-count invariant violation
(the shared sample count of a clip with no animated channels is 0). -/
theorem all_default_regions (O : FormatOracle) (rf tf : Nat)
    (bones : List BoneStreams)
    (h : ∀ b ∈ bones, b.is_rotation_default = true ∧ b.is_translation_default = true) :
    get_constant_data_size O bones = 0
    ∧ get_animated_data_size O bones = (0, 0)
    ∧ get_format_per_track_data_size O rf tf bones = 0
    ∧ write_constant_track_data bones 0 = Except.ok []
    ∧ write_format_per_track_data O bones rf tf 0 = Except.ok []
    ∧ write_animated_track_data bones 0 = Except.error WriteError.noSamples := by
  have hcb := constantBytes_all_default bones h
  have hfb := formatTableBytes_all_default O rf tf bones h
  have hgan := gan_zero bones (all_default_no_animated bones h)
  have hacc : ∀ b ∈ bones, accessConstant b := by
    intro b hb
    obtain ⟨h1, h2⟩ := h b hb
    constructor
    · intro hc
      rw [h1] at hc
      simp at hc
    · intro hc
      rw [h2] at hc
      simp at hc
  have hfit : ∀ b ∈ bones, formatFits O rf tf b := by
    intro b hb
    obtain ⟨h1, h2⟩ := h b hb
    constructor
    · intro hc
      rw [is_rotation_animated, h1] at hc
      simp at hc
    · intro hc
      rw [is_translation_animated, h2] at hc
      simp at hc
  refine ⟨constant_size_all_default O bones h, animated_size_all_default O bones h,
    format_size_all_default O rf tf bones h, ?_, ?_, ?_⟩
  · have hw := write_constant_ok bones 0 hacc (by rw [hcb]; rfl)
    rw [hcb] at hw
    exact hw
  · have hw := write_format_ok O bones rf tf 0 hfit (by rw [hfb]; rfl)
    rw [hfb] at hw
    exact hw
  · exact write_animated_reject bones 0 (by rw [hgan]; exact Nat.zero_le 1)

/-- Witness for the amended C7 at `O0` and `Dbones`. -/
theorem all_default_regions_witness :
    get_constant_data_size O0 Dbones = 0
    ∧ get_animated_data_size O0 Dbones = (0, 0)
    ∧ get_format_per_track_data_size O0 1 1 Dbones = 0
    ∧ write_constant_track_data Dbones 0 = Except.ok []
    ∧ write_format_per_track_data O0 Dbones 1 1 0 = Except.ok []
    ∧ write_animated_track_data Dbones 0 = Except.error WriteError.noSamples :=
  all_default_regions O0 1 1 Dbones (by decide)

/-- Claim C8: re-reading the constant region with the same traversal
(ascending bone, rotation before translation, one packed-size chunk per
constant-and-not-default channel) recovers each such channel's sample-0
bytes unchanged. -/
theorem constant_region_roundtrip (O : FormatOracle) (bones : List BoneStreams)
    (hwf : ∀ b ∈ bones, wfConstant O b)
    (hacc : ∀ b ∈ bones, accessConstant b)
    (hsam : ∀ b ∈ bones, exactConstant b) :
    write_constant_track_data bones (get_constant_data_size O bones)
      = Except.ok (constantBytes bones)
    ∧ read_constant_track_data O bones (constantBytes bones)
        = constantSamples bones := by
  have hlen := constantBytes_length O bones hwf
  refine ⟨write_constant_ok bones _ hacc hlen, ?_⟩
  have hr := read_constant_of_writer O bones [] hwf hsam
  simpa using hr

/-- Witness for C8 at `O0` and `Wbones`. -/
theorem constant_region_roundtrip_witness :
    write_constant_track_data Wbones (get_constant_data_size O0 Wbones)
      = Except.ok (constantBytes Wbones)
    ∧ read_constant_track_data O0 Wbones (constantBytes Wbones)
        = constantSamples Wbones :=
  constant_region_roundtrip O0 Wbones (by decide) (by decide) (by decide)

/-- Claim C9 counterexample: on `Mbones` the constant writer, given exactly
`get_constant_data_size` bytes, passes both of its checks even though the
per-channel stream/oracle sizes disagree on both constant channels (the two
mismatches cancel) — refuting the claimed equivalence between check success
and per-channel size agreement. -/
theorem constant_sizes_iff_counterexample :
    write_constant_track_data Mbones (get_constant_data_size O0 Mbones)
      = Except.ok [1, 1, 2, 2, 2, 2]
    ∧ ¬ (∀ b ∈ Mbones, wfConstant O0 b) :=
  ⟨rfl, by decide⟩

/-- Claim C9 as amended: if (not iff) every constant-and-not-default
channel's `get_sample_size()` equals the oracle's packed size for its
format (and each such channel stores a sample 0), the constant writer given
a buffer of `get_constant_data_size` bytes never reaches an error branch. -/
theorem constant_writer_error_unreachable (O : FormatOracle)
    (bones : List BoneStreams)
    (hmatch : ∀ b ∈ bones, wfConstant O b)
    (hacc : ∀ b ∈ bones, accessConstant b) :
    ∀ e : WriteError, write_constant_track_data bones (get_constant_data_size O bones)
      ≠ Except.error e := by
  intro e
  rw [write_constant_ok bones _ hacc (constantBytes_length O bones hmatch)]
  simp

/-- Witness for the amended C9 at `O0` and `Wbones`. -/
theorem constant_writer_error_unreachable_witness :
    write_constant_track_data Wbones (get_constant_data_size O0 Wbones)
      ≠ Except.error WriteError.wroteTooMuch :=
  constant_writer_error_unreachable O0 Wbones (by decide) (by decide)
    WriteError.wroteTooMuch

/-- Claim C10: when every animated channel stores at least
`get_animated_num_samples` samples, the animated writer's raw-sample
accesses are all in range — the out-of-range branch of the total embedding
is unreachable, for any destination size. -/
theorem animated_writer_no_out_of_range (bones : List BoneStreams)
    (hacc : ∀ b ∈ bones, accessAnimated (get_animated_num_samples bones) b) :
    ∀ size : Nat, write_animated_track_data bones size
      ≠ Except.error WriteError.sampleOutOfRange := by
  intro size
  unfold write_animated_track_data
  by_cases hN : get_animated_num_samples bones > 1
  · rw [if_pos hN]
    rcases writeLoop_times_cases size bones
      (List.range (get_animated_num_samples bones)) []
      (fun t htm b hb => by
        obtain ⟨hr, ht⟩ := hacc b hb
        have htn := List.mem_range.mp htm
        exact ⟨fun ha => Nat.lt_of_lt_of_le htn (hr ha),
          fun ha => Nat.lt_of_lt_of_le htn (ht ha)⟩) with ⟨a, ha⟩ | herr
    · simp only [ha]
      split <;> simp
    · simp only [herr]
      simp
  · rw [if_neg hN]
    simp

/-- Witness for C10 at `Wbones`. -/
theorem animated_writer_no_out_of_range_witness :
    write_animated_track_data Wbones 9 ≠ Except.error WriteError.sampleOutOfRange :=
  animated_writer_no_out_of_range Wbones (by decide) 9

end AclStream
